import Mathlib

/-!
Verification development for the `asgc_avc` differential-drive robot
controller (C sources under `src/c_code/`).  Each C function relevant to
the checked properties is shallowly embedded as a Lean definition:
machine `int`/`int32_t`/`int16_t` values become `ℤ` (no arithmetic here
approaches 2^31, so overflow is immaterial), C `double` values become
`ℚ` where no transcendental function is involved and `ℝ` where `M_PI`,
`cos`, `sin` or `atan2` appear, and the C truncating cast `(int)x` on a
non-negative `x` becomes `Int.floor`.  Field and function names follow
the C sources.
-/

namespace AsgcAvc

/-! ## Constants (common.h, motor.h, main.c) -/

def COUNTS_PER_REV : ℤ := 4096

def STOP_THRESHOLD : ℤ := 50

def DEADBAND_THRESHOLD : ℤ := 50

def PWM_PERIOD_NS : ℤ := 2500000

def NEUTRAL_NS : ℤ := 1500000

def FORWARD_START_NS : ℤ := 1500000

def FORWARD_MAX_NS : ℤ := 2000000

def REVERSE_START_NS : ℤ := 1500000

def REVERSE_MAX_NS : ℤ := 1000000

def LOG_SIZE : ℕ := 1000000

/-- WHEEL_DIAMETER_INCHES (common.h). -/
def WHEEL_DIAMETER_INCHES : ℝ := 5.3

/-- WHEELBASE_INCHES (common.h). -/
def WHEELBASE_INCHES : ℝ := 16.0

/-- WHEEL_CIRCUMFERENCE_INCHES = M_PI * WHEEL_DIAMETER_INCHES (common.h). -/
noncomputable def WHEEL_CIRCUMFERENCE_INCHES : ℝ := Real.pi * WHEEL_DIAMETER_INCHES

/-- COUNTS_PER_INCH = COUNTS_PER_REV / WHEEL_CIRCUMFERENCE_INCHES (common.h). -/
noncomputable def COUNTS_PER_INCH : ℝ := 4096 / WHEEL_CIRCUMFERENCE_INCHES

/-- COUNTS_PER_FOOT = COUNTS_PER_INCH * INCHES_PER_FOOT (common.h). -/
noncomputable def COUNTS_PER_FOOT : ℝ := COUNTS_PER_INCH * 12

/-! ## PWM actuator (motor.c) -/

/-- Mutable state of one `Motor` (motor.h): commanded pulse width in ns,
time of the last `set_motor_speed` call, last requested speed percent. -/
structure Motor where
  last_pulse_ns : ℤ
  last_speed_update_time : ℚ
  current_speed : ℤ
  deriving Repr, DecidableEq

/-- Motor state after `pwm_init` (motor.c lines 62-65): pulse is neutral,
update time 0. -/
def motor_init : Motor := ⟨NEUTRAL_NS, 0, 0⟩

/-- RAMP_NS_PER_SEC (motor.c line 98). -/
def RAMP_NS_PER_SEC : ℚ := 166667

/-- `set_motor_speed(motor_id, speed_percent, immediate)` from motor.c
lines 74-138, with the wall clock passed explicitly (`now` stands for
the `get_time_sec()` call).  The integer divisions by 100 act on
non-negative operands, where C truncating division and Lean division
agree; `(int)(RAMP_NS_PER_SEC * dt)` with `dt > 0` is `Int.floor`. -/
def set_motor_speed (m : Motor) (speed_percent : ℤ) (immediate : Bool) (now : ℚ) : Motor :=
  let sp : ℤ := if speed_percent > 100 then 100
    else if speed_percent < -100 then -100 else speed_percent
  let target0 : ℤ :=
    if sp > 0 then FORWARD_START_NS + (sp * (FORWARD_MAX_NS - FORWARD_START_NS)) / 100
    else if sp < 0 then REVERSE_START_NS - (|sp| * (REVERSE_START_NS - REVERSE_MAX_NS)) / 100
    else NEUTRAL_NS
  let target1 : ℤ := if target0 > FORWARD_MAX_NS then FORWARD_MAX_NS else target0
  let target : ℤ := if target1 < REVERSE_MAX_NS then REVERSE_MAX_NS else target1
  let dt : ℚ := now - m.last_speed_update_time
  let pulse : ℤ :=
    if immediate = false ∧ dt > 0 ∧ m.last_speed_update_time > 0 then
      let diff := target - m.last_pulse_ns
      let mc0 : ℤ := ⌊RAMP_NS_PER_SEC * dt⌋
      let max_change : ℤ := if mc0 < 1 then 1 else mc0
      if |diff| > max_change then
        (if diff > 0 then m.last_pulse_ns + max_change else m.last_pulse_ns - max_change)
      else target
    else target
  { last_pulse_ns := pulse, last_speed_update_time := now, current_speed := sp }

/-- One entry of a call history to `set_motor_speed` on a fixed wheel:
requested speed percent, immediate flag, call time. -/
structure SpeedCall where
  speed_percent : ℤ
  immediate : Bool
  time : ℚ

/-- Replay a list of `set_motor_speed` calls against a motor state. -/
def run_speed_calls (m : Motor) (calls : List SpeedCall) : Motor :=
  calls.foldl (fun acc c => set_motor_speed acc c.speed_percent c.immediate c.time) m

/-! ## Rotation tracker (main.c lines 500-551) -/

/-- Per-wheel `EncoderState` (motor.h).  `stall_check_time` is a time in
seconds (a C double), kept as `ℚ`. -/
structure EncoderState where
  total_counts : ℤ
  current_raw_angle : ℤ
  start_raw_angle : ℤ
  rotation_count : ℤ
  motor_state : ℤ
  last_motor_state : ℤ
  last_raw_angle : ℤ
  target_counts : ℤ
  move_start_counts : ℤ
  has_target : Bool
  stall_last_position : ℤ
  stall_check_time : ℚ
  stall_count : ℤ
  deriving Repr, DecidableEq

/-- Encoder state after the initialization loop in `main` (main.c lines
852-868): everything zero except `last_raw_angle = -1` (flagged invalid). -/
def encoder_init : EncoderState :=
  { total_counts := 0, current_raw_angle := 0, start_raw_angle := 0,
    rotation_count := 0, motor_state := 0, last_motor_state := 0,
    last_raw_angle := -1, target_counts := 0, move_start_counts := 0,
    has_target := false, stall_last_position := 0, stall_check_time := 0,
    stall_count := 0 }

/-- `get_motor_state` (main.c lines 500-504): direction inferred from the
commanded pulse width with a 10 us hysteresis band around neutral. -/
def get_motor_state (pwm_ns : ℤ) : ℤ :=
  if pwm_ns > NEUTRAL_NS + 10000 then 1
  else if pwm_ns < NEUTRAL_NS - 10000 then -1
  else 0

/-- `calculate_position` (main.c lines 507-515):
`COUNTS_PER_REV * rotation_count + (current_raw_angle - start_raw_angle)`. -/
def calculate_position (enc : EncoderState) : ℤ :=
  COUNTS_PER_REV * enc.rotation_count + (enc.current_raw_angle - enc.start_raw_angle)

/-- `update_encoder_rotation` (main.c lines 517-551), with the wheel's
commanded pulse width (`motors[motor_id].last_pulse_ns`) passed in. -/
def update_encoder_rotation (enc : EncoderState) (raw_angle : ℤ) (pulse_ns : ℤ) :
    EncoderState :=
  let ms := get_motor_state pulse_ns
  if enc.last_raw_angle < 0 then
    { enc with
      motor_state := ms
      last_raw_angle := raw_angle
      current_raw_angle := raw_angle
      last_motor_state := ms }
  else
    let rot :=
      if ms = 1 ∧ enc.last_raw_angle > 3000 ∧ raw_angle < 1000 then
        enc.rotation_count + 1
      else if ms = -1 ∧ enc.last_raw_angle < 1000 ∧ raw_angle > 3000 then
        enc.rotation_count - 1
      else enc.rotation_count
    let enc2 : EncoderState :=
      { enc with
        motor_state := ms
        rotation_count := rot
        last_raw_angle := raw_angle
        current_raw_angle := raw_angle
        last_motor_state := ms }
    { enc2 with total_counts := calculate_position enc2 }

/-- Feed a list of raw angle readings through `update_encoder_rotation`
while the wheel's commanded pulse stays fixed. -/
def run_encoder_updates (enc : EncoderState) (pulse_ns : ℤ) (raws : List ℤ) :
    EncoderState :=
  raws.foldl (fun acc r => update_encoder_rotation acc r pulse_ns) enc

/-- The encoder state of claim C8: rotation 0, initialized raw angle 0. -/
def c8_start : EncoderState := { encoder_init with last_raw_angle := 0 }

/-! ## Navigation controller per-wheel tick (main.c lines 341-481) -/

/-- The relative progress used by the control thread (main.c lines 355
and 417): `(total_counts + (current_raw_angle - start_raw_angle)) -
move_start_counts`, exactly as written in the source. -/
def control_relative (enc : EncoderState) : ℤ :=
  (enc.total_counts + (enc.current_raw_angle - enc.start_raw_angle)) - enc.move_start_counts

/-- `MAX_PWM` of the TURNING/DRIVING tick (main.c lines 348-349):
`(int)(g_max_pwm * speed_multiplier)` raised to at least `g_min_pwm`.
The product is non-negative for the reachable parameters, so the C
truncating cast is `Int.floor`. -/
def compute_max_pwm (g_max_pwm g_min_pwm : ℤ) (speed_multiplier : ℚ) : ℤ :=
  let v : ℤ := ⌊(g_max_pwm : ℚ) * speed_multiplier⌋
  if v < g_min_pwm then g_min_pwm else v

/-- One per-wheel tick of the TURNING/DRIVING state (main.c lines
352-411 for the left wheel; lines 414-471 are the same code for the
right wheel).  Returns the updated encoder state, the updated motor, and
the `wheel_done` flag. -/
def wheel_tick (enc : EncoderState) (m : Motor) (max_pwm : ℤ) (now : ℚ) :
    EncoderState × Motor × Bool :=
  if enc.has_target then
    let current_relative := control_relative enc
    let error := enc.target_counts - current_relative
    if |error| < STOP_THRESHOLD then
      ({ enc with has_target := false, stall_count := 0 },
        set_motor_speed m 0 true now, true)
    else if |error| < DEADBAND_THRESHOLD ∧ enc.stall_count = 0 then
      ({ enc with has_target := false }, set_motor_speed m 0 true now, true)
    else
      let enc2 :=
        if now - enc.stall_check_time > 0.5 then
          let position_change := |current_relative - enc.stall_last_position|
          let sc := if position_change < 20 ∧ |error| > 100 then enc.stall_count + 1 else 0
          { enc with
            stall_count := sc
            stall_last_position := current_relative
            stall_check_time := now }
        else enc
      let pwm0 := if error > 0 then max_pwm else -max_pwm
      let boost := enc2.stall_count * 10
      let pwm := if pwm0 > 0 then (if pwm0 + boost > 100 then 100 else pwm0 + boost)
        else (if pwm0 - boost < -100 then -100 else pwm0 - boost)
      (enc2, set_motor_speed m pwm true now, false)
  else (enc, set_motor_speed m 0 true now, true)

/-- The per-wheel effect of the `stop` command (main.c lines 747-752):
clear `has_target`, command speed 0 immediately. -/
def stop_wheel (enc : EncoderState) (m : Motor) (now : ℚ) : EncoderState × Motor :=
  ({ enc with has_target := false }, set_motor_speed m 0 true now)

/-- The per-wheel effect of the `pulse` command (main.c lines 765-801):
clear `has_target`, clamp the requested pulse width to
[REVERSE_MAX_NS, FORWARD_MAX_NS] and write it directly to the PWM duty
file and `last_pulse_ns`; `set_motor_speed` is not called. -/
def pulse_wheel (enc : EncoderState) (m : Motor) (ns : ℤ) : EncoderState × Motor :=
  let c1 := if ns < REVERSE_MAX_NS then REVERSE_MAX_NS else ns
  let clamped := if c1 > FORWARD_MAX_NS then FORWARD_MAX_NS else c1
  ({ enc with has_target := false }, { m with last_pulse_ns := clamped })

/-- The per-wheel segment programming done in the GOTO planning tick
(main.c lines 282-298 turn, 310-332 drive), with the computed target
counts passed in: snapshot `move_start_counts`, set the target, raise
`has_target`, reset the stall detector.  The motor is not touched. -/
def goto_program_wheel (enc : EncoderState) (m : Motor) (target : ℤ) (now : ℚ) :
    EncoderState × Motor :=
  ({ enc with
      move_start_counts := enc.total_counts
      target_counts := target
      has_target := true
      stall_count := 0
      stall_check_time := now
      stall_last_position := 0 }, m)

/-- The operations that touch a wheel's `has_target` flag or its motor
from the control and input threads. -/
inductive WheelOp where
  | tick (max_pwm : ℤ) (now : ℚ)
  | stop_cmd (now : ℚ)
  | goto_prog (target : ℤ) (now : ℚ)
  | pulse_cmd (ns : ℤ)

/-- Whether an operation is a `pulse` command. -/
def WheelOp.is_pulse : WheelOp → Bool
  | .pulse_cmd _ => true
  | _ => false

/-- Apply one operation to a wheel. -/
def apply_wheel_op (w : EncoderState × Motor) : WheelOp → EncoderState × Motor
  | .tick mp now => ((wheel_tick w.1 w.2 mp now).1, (wheel_tick w.1 w.2 mp now).2.1)
  | .stop_cmd now => stop_wheel w.1 w.2 now
  | .goto_prog t now => goto_program_wheel w.1 w.2 t now
  | .pulse_cmd ns => pulse_wheel w.1 w.2 ns

/-- Replay a list of wheel operations. -/
def run_wheel_ops (w : EncoderState × Motor) (ops : List WheelOp) : EncoderState × Motor :=
  ops.foldl apply_wheel_op w

/-- The I3/P3 invariant: a wheel without an active target was last
commanded to neutral. -/
def wheel_neutral_inv (w : EncoderState × Motor) : Prop :=
  w.1.has_target = false → w.2.last_pulse_ns = NEUTRAL_NS

/-- The concrete encoder state of the C2 counterexample: one consistent
with `total_counts = calculate_position` but with the wheel 100 counts
into its rotation window. -/
def c2_enc : EncoderState :=
  { encoder_init with total_counts := 100, current_raw_angle := 100, last_raw_angle := 100 }

/-! ## GOTO planning geometry (main.c lines 256-337, 593-596) -/

/-- `calculate_turn_counts` (main.c lines 593-596): arc length of the
differential pivot for `fabs(degrees)`, converted to encoder counts; the
C cast `(int32_t)` truncates the non-negative product, i.e. `Int.floor`. -/
noncomputable def calculate_turn_counts (degrees : ℝ) : ℤ :=
  ⌊(|degrees| / 360 * Real.pi * WHEELBASE_INCHES) * COUNTS_PER_INCH⌋

/-- Left wheel target programmed for a turn (main.c line 284). -/
noncomputable def left_turn_target (heading_diff : ℝ) : ℤ :=
  calculate_turn_counts heading_diff

/-- Right wheel target programmed for a turn (main.c line 293). -/
noncomputable def right_turn_target (heading_diff : ℝ) : ℤ :=
  -(calculate_turn_counts heading_diff)

/-- The C library `atan2(y, x)` on its principal branches. -/
noncomputable def atan2 (y x : ℝ) : ℝ :=
  if 0 < x then Real.arctan (y / x)
  else if x < 0 then
    (if 0 ≤ y then Real.arctan (y / x) + Real.pi else Real.arctan (y / x) - Real.pi)
  else
    (if 0 < y then Real.pi / 2 else if y < 0 then -(Real.pi / 2) else 0)

/-- `target_heading` of the GOTO planning tick (main.c lines 260-261):
`atan2(dy, dx)` in degrees, shifted by 360 once if negative. -/
noncomputable def goto_target_heading (dx dy : ℝ) : ℝ :=
  let th := atan2 dy dx * 180 / Real.pi
  if th < 0 then th + 360 else th

/-- The wrap-to-[-180, 180] loops of main.c lines 264-265.  For the
reachable arguments (a difference of two angles in [0, 360), hence in
(-360, 360)) each loop runs at most once, so a single conditional step
is exact. -/
noncomputable def wrap_pm180 (d : ℝ) : ℝ :=
  if d > 180 then d - 360 else if d < -180 then d + 360 else d

/-- `heading_diff` of the GOTO planning tick (main.c lines 263-265). -/
noncomputable def goto_heading_diff (target_x target_y x y heading : ℝ) : ℝ :=
  wrap_pm180 (goto_target_heading (target_x - x) (target_y - y) - heading)

/-! ## Odometry (main.c lines 599-672, 727-743) -/

/-- `OdometryState` (common.h). -/
structure OdometryState where
  x : ℝ
  y : ℝ
  heading : ℝ
  last_left_total : ℤ
  last_right_total : ℤ

/-- The heading normalization loops of main.c lines 666-667
(`while (h >= 360) h -= 360; while (h < 0) h += 360;`) compute, for any
finite input, the unique representative in [0, 360): `h - 360*⌊h/360⌋`.
The lemmas `normalize_heading_sub_360`, `normalize_heading_add_360` and
`normalize_heading_eq_self` below establish exactly the two loop steps
and the loop exit. -/
noncomputable def normalize_heading (h : ℝ) : ℝ := h - 360 * ⌊h / 360⌋

/-- `update_odometry` (main.c lines 599-672) after the first (baseline
capturing) call, as a function of the two encoder totals, the shared
gyro rate and the elapsed time `dt = get_time_sec() - last_imu_time`. -/
noncomputable def update_odometry (s : OdometryState) (left_total right_total : ℤ)
    (gyro_in : ℝ) (dt : ℝ) : OdometryState :=
  let d_left : ℤ := left_total - s.last_left_total
  let d_right : ℤ := right_total - s.last_right_total
  let dist_left : ℝ := (d_left : ℝ) / COUNTS_PER_FOOT
  let dist_right : ℝ := (d_right : ℝ) / COUNTS_PER_FOOT
  let center_dist := (dist_left + dist_right) / 2
  let gyro_rate := if |gyro_in| < 0.25 then 0 else gyro_in
  let delta_heading := if |center_dist| > 0.001 then gyro_rate * dt else 0
  let new_heading := s.heading + delta_heading
  let avg_heading_rad := (s.heading + new_heading) / 2 * (Real.pi / 180)
  { x := s.x + center_dist * Real.cos avg_heading_rad
    y := s.y + center_dist * Real.sin avg_heading_rad
    heading := normalize_heading new_heading
    last_left_total := left_total
    last_right_total := right_total }

/-- The `setpos` command handler (main.c lines 727-743): force the pose
fields and re-baseline the encoder totals.  The heading is stored as
given, with no normalization. -/
def process_setpos (_s : OdometryState) (x y h : ℝ) (left_total right_total : ℤ) :
    OdometryState :=
  { x := x, y := y, heading := h,
    last_left_total := left_total, last_right_total := right_total }

/-- A concrete odometry state for closed instances. -/
def odom_example : OdometryState := ⟨0, 0, 0, 0, 0⟩

/-- An odometry state whose heading (reachable through
`setpos 0 0 400`, which stores the heading unnormalized) lies outside
[0, 360). -/
def odom_heading400 : OdometryState := ⟨0, 0, 400, 0, 0⟩

/-- An odometry state with a normalized heading of 90 degrees. -/
def odom_heading90 : OdometryState := ⟨0, 0, 90, 0, 0⟩

/-! ## IMU and sensor acquisition (imu.c, sensors.c) -/

/-- `imu_read_gyro_z` (imu.c lines 60-88) as a function of the raw
16-bit register value (`none` models a failed bus write/read, which
returns 0.0) and the stored `z_gyro_offset`. -/
def imu_read_gyro_z (reading : Option ℤ) (z_gyro_offset : ℚ) : ℚ :=
  match reading with
  | none => 0
  | some raw_z => -((raw_z : ℚ) / 131 - z_gyro_offset)

/-- `imu_calibrate` (imu.c lines 90-116) under a constant raw register
value: the offset is temporarily zeroed, `samples` readings are summed
and averaged, and the average becomes the new `z_gyro_offset`. -/
def imu_calibrate_offset (samples : ℕ) (reading : Option ℤ) : ℚ :=
  (List.replicate samples (imu_read_gyro_z reading 0)).sum / samples

/-- `SensorData` (sensors.h). -/
structure SensorData where
  left_encoder : ℤ
  right_encoder : ℤ
  gyro_z : ℚ
  timestamp : ℚ
  valid : Bool

/-- `read_all_sensors` (sensors.c lines 46-77) as a function of the two
encoder thread results (`read_raw_angle` returns -1 on failure, so
success is `angle >= 0`) and the IMU thread outcome.  Per sensors.c line
39 the IMU thread sets `success = 1` unconditionally - a failed
`imu_read_gyro_z` returns 0.0 and is still counted as success. -/
def read_all_sensors (left_angle right_angle : ℤ) (imu_reading : Option ℤ)
    (z_gyro_offset : ℚ) (timestamp : ℚ) : SensorData :=
  let left_success := decide (0 ≤ left_angle)
  let right_success := decide (0 ≤ right_angle)
  let imu_success := true
  { left_encoder := left_angle
    right_encoder := right_angle
    gyro_z := imu_read_gyro_z imu_reading z_gyro_offset
    timestamp := timestamp
    valid := left_success && right_success && imu_success }

/-- The state touched by one iteration of `encoder_feedback_thread`. -/
structure FeedbackState where
  encL : EncoderState
  encR : EncoderState
  current_gyro_rate : ℚ
  odom : OdometryState

/-- One iteration of `encoder_feedback_thread` (main.c lines 556-589):
an invalid sample skips the whole tick (`continue`); otherwise the gyro
rate is stored, each non-negative encoder angle is processed, and
odometry is updated. -/
noncomputable def feedback_tick (st : FeedbackState) (sample : SensorData)
    (pulse_l pulse_r : ℤ) (dt : ℝ) : FeedbackState :=
  if sample.valid = false then st
  else
    let st1 := { st with current_gyro_rate := sample.gyro_z }
    let st2 := if 0 ≤ sample.left_encoder then
        { st1 with encL := update_encoder_rotation st1.encL sample.left_encoder pulse_l }
      else st1
    let st3 := if 0 ≤ sample.right_encoder then
        { st2 with encR := update_encoder_rotation st2.encR sample.right_encoder pulse_r }
      else st2
    { st3 with
      odom := update_odometry st3.odom st3.encL.total_counts st3.encR.total_counts
        (st3.current_gyro_rate : ℝ) dt }

/-- A concrete feedback state for closed instances. -/
def fb_example : FeedbackState :=
  { encL := encoder_init, encR := encoder_init, current_gyro_rate := 0,
    odom := odom_example }

/-! ## Telemetry log (main.c lines 41-238, 744-757) -/

/-- One `LogEntry` (main.c lines 50-72); `double` telemetry payload kept
as `ℚ`/`ℝ` to match the embedding of the producers. -/
structure LogEntry where
  time : ℚ
  mode : ℤ
  target_l : ℤ
  actual_l : ℤ
  pulse_l : ℤ
  raw_l : ℤ
  target_r : ℤ
  actual_r : ℤ
  pulse_r : ℤ
  raw_r : ℤ
  gyro_z : ℚ
  odom_x : ℝ
  odom_y : ℝ
  odom_heading : ℝ
  nav_state : ℤ

/-- The log system state: `log_buffer` is `none` once freed (or if
allocation failed), otherwise the list of entries written so far;
`log_index` is the write index. -/
structure LogState where
  log_buffer : Option (List LogEntry)
  log_index : ℕ

/-- State after a successful `init_log_system` (main.c lines 78-85). -/
def log_init : LogState := ⟨some [], 0⟩

/-- `log_data` (main.c lines 87-123): no-op when the buffer is gone or
full, else append at the write index and advance it. -/
def log_data (s : LogState) (e : LogEntry) : LogState :=
  match s.log_buffer with
  | none => s
  | some buf => if LOG_SIZE ≤ s.log_index then s else ⟨some (buf ++ [e]), s.log_index + 1⟩

/-- The rows a `dump_log` call writes out (main.c lines 193-206):
entries 0 .. log_index-1, nothing when the buffer is gone. -/
def dump_log_rows (s : LogState) : List LogEntry :=
  match s.log_buffer with
  | none => []
  | some buf => buf.take s.log_index

/-- The state effect of `dump_log` (main.c lines 125-238): an early
return when the buffer is already gone; otherwise the buffer is freed
and set to NULL (lines 235-237).  The CSV file writing itself is the
out-of-scope external collaborator. -/
def dump_log (s : LogState) : LogState :=
  match s.log_buffer with
  | none => s
  | some _ => ⟨none, s.log_index⟩

/-- The log-related effect of the `stop` command (main.c lines 753-755):
`dump_log()` then `log_index = 0`. -/
def stop_cmd_log (s : LogState) : LogState :=
  let s1 := dump_log s
  { s1 with log_index := 0 }

/-- Operations that touch the log after startup: a control-tick append,
the `stop` command, a termination-signal dump. -/
inductive LogOp where
  | log (e : LogEntry)
  | stop_cmd
  | signal_dump

/-- Apply one log operation. -/
def apply_log_op (s : LogState) : LogOp → LogState
  | .log e => log_data s e
  | .stop_cmd => stop_cmd_log s
  | .signal_dump => dump_log s

/-- Replay a list of log operations. -/
def run_log_ops (s : LogState) (ops : List LogOp) : LogState :=
  ops.foldl apply_log_op s

/-! ## Supporting lemmas -/

/-- The clamped target pulse computed by `set_motor_speed` is in range. -/
lemma set_motor_speed_pulse_bounds (m : Motor) (s : ℤ) (i : Bool) (now : ℚ)
    (hlo : REVERSE_MAX_NS ≤ m.last_pulse_ns) (hhi : m.last_pulse_ns ≤ FORWARD_MAX_NS) :
    REVERSE_MAX_NS ≤ (set_motor_speed m s i now).last_pulse_ns ∧
      (set_motor_speed m s i now).last_pulse_ns ≤ FORWARD_MAX_NS := by
  unfold set_motor_speed
  simp only [REVERSE_MAX_NS, FORWARD_MAX_NS, NEUTRAL_NS, FORWARD_START_NS,
    REVERSE_START_NS] at *
  set sp : ℤ := if s > 100 then 100 else if s < -100 then -100 else s with hsp
  set target0 : ℤ := if sp > 0 then 1500000 + sp * (2000000 - 1500000) / 100
    else if sp < 0 then 1500000 - |sp| * (1500000 - 1000000) / 100 else 1500000 with ht0
  set target1 : ℤ := if target0 > 2000000 then 2000000 else target0 with ht1
  set target : ℤ := if target1 < 1000000 then 1000000 else target1 with ht
  have htarget : 1000000 ≤ target ∧ target ≤ 2000000 := by
    constructor
    · rw [ht]; split
      · omega
      · rename_i h; rw [ht1] at h ⊢; split
        · omega
        · omega
    · rw [ht]; split
      · omega
      · rw [ht1]; split
        · omega
        · rename_i h h2; omega
  split
  · rename_i hcond
    set diff : ℤ := target - m.last_pulse_ns with hdiff
    set mc0 : ℤ := ⌊RAMP_NS_PER_SEC * (now - m.last_speed_update_time)⌋ with hmc0
    set max_change : ℤ := if mc0 < 1 then 1 else mc0 with hmc
    have hmcpos : 1 ≤ max_change := by rw [hmc]; split <;> omega
    split
    · rename_i habs
      have habs2 : max_change < diff ∨ max_change < -diff := by
        rcases abs_cases diff with ⟨heq, h2⟩ | ⟨heq, h2⟩
        · left; rw [heq] at habs; exact habs
        · right; rw [heq] at habs; exact habs
      split
      · omega
      · omega
    · exact htarget
  · exact htarget

/-- Bounds are preserved along any call history. -/
lemma run_speed_calls_bounds (calls : List SpeedCall) :
    ∀ m : Motor, REVERSE_MAX_NS ≤ m.last_pulse_ns → m.last_pulse_ns ≤ FORWARD_MAX_NS →
      REVERSE_MAX_NS ≤ (run_speed_calls m calls).last_pulse_ns ∧
        (run_speed_calls m calls).last_pulse_ns ≤ FORWARD_MAX_NS := by
  induction calls with
  | nil => intro m h1 h2; exact ⟨h1, h2⟩
  | cons c rest ih =>
      intro m h1 h2
      have hstep := set_motor_speed_pulse_bounds m c.speed_percent c.immediate c.time h1 h2
      exact ih _ hstep.1 hstep.2

/-- `set_motor_speed` at speed 0 in immediate mode commands NEUTRAL_NS. -/
lemma set_motor_speed_zero_immediate (m : Motor) (now : ℚ) :
    (set_motor_speed m 0 true now).last_pulse_ns = NEUTRAL_NS := by
  simp [set_motor_speed, NEUTRAL_NS, FORWARD_MAX_NS, REVERSE_MAX_NS]

/-! ## Theorems for the claims -/

/-- C8: from rotation_count = 0 and initialized last_raw_angle = 0, with
the commanded pulse held above NEUTRAL_NS + 10000 (motor_state +1), the
raw readings 0, 2000, 3500, 500, 2000 yield rotation_count = 1; with the
pulse held below NEUTRAL_NS - 10000 (motor_state -1) the reversed
sequence yields rotation_count = -1. -/
theorem update_encoder_rotation_l1 (pf pr : ℤ)
    (hf : NEUTRAL_NS + 10000 < pf) (hr : pr < NEUTRAL_NS - 10000) :
    (run_encoder_updates c8_start pf [0, 2000, 3500, 500, 2000]).rotation_count = 1 ∧
      (run_encoder_updates c8_start pr [2000, 500, 3500, 2000, 0]).rotation_count = -1 := by
  have hmsf : get_motor_state pf = 1 := by
    unfold get_motor_state
    rw [if_pos hf]
  have hmsr : get_motor_state pr = -1 := by
    unfold get_motor_state NEUTRAL_NS at *
    rw [if_neg (by omega), if_pos hr]
  constructor
  · simp [run_encoder_updates, update_encoder_rotation, hmsf, c8_start,
      encoder_init, calculate_position]
  · simp [run_encoder_updates, update_encoder_rotation, hmsr, c8_start,
      encoder_init, calculate_position]

/-- Witness for C8 at concrete pulses 1600000 (forward) and 1400000
(reverse). -/
theorem update_encoder_rotation_l1_witness :
    (run_encoder_updates c8_start 1600000 [0, 2000, 3500, 500, 2000]).rotation_count = 1 ∧
      (run_encoder_updates c8_start 1400000 [2000, 500, 3500, 2000, 0]).rotation_count = -1 :=
  update_encoder_rotation_l1 1600000 1400000 (by decide) (by decide)

/-- C7: starting from `pwm_init`'s state (`last_pulse_ns = NEUTRAL_NS`),
after any sequence of `set_motor_speed` calls - any speed percent, any
immediate flag, any call times, through both the immediate and the
ramp-limited path - the wheel's `last_pulse_ns` stays within
[REVERSE_MAX_NS, FORWARD_MAX_NS]. -/
theorem set_motor_speed_pulse_in_range (calls : List SpeedCall) :
    REVERSE_MAX_NS ≤ (run_speed_calls motor_init calls).last_pulse_ns ∧
      (run_speed_calls motor_init calls).last_pulse_ns ≤ FORWARD_MAX_NS :=
  run_speed_calls_bounds calls motor_init (by decide) (by decide)

/-- A control-thread wheel tick that leaves `has_target` cleared has
commanded neutral on that same tick. -/
lemma wheel_tick_clear_neutral (enc : EncoderState) (m : Motor) (mp : ℤ) (now : ℚ) :
    (wheel_tick enc m mp now).1.has_target = false →
      (wheel_tick enc m mp now).2.1.last_pulse_ns = NEUTRAL_NS := by
  by_cases ht : enc.has_target = true
  · by_cases h1 : |enc.target_counts - control_relative enc| < STOP_THRESHOLD
    · intro _
      simp only [wheel_tick, ht, h1, if_true]
      exact set_motor_speed_zero_immediate m now
    · by_cases h2 : |enc.target_counts - control_relative enc| < DEADBAND_THRESHOLD ∧
          enc.stall_count = 0
      · intro _
        simp only [wheel_tick, ht, h1, h2, if_true, if_false]
        exact set_motor_speed_zero_immediate m now
      · intro h
        exfalso
        simp only [wheel_tick, ht, h1, h2, if_true, if_false] at h
        split at h
        · simp only at h
          simp [ht] at h
        · simp [ht] at h
  · intro _
    have ht2 : enc.has_target = false := by
      revert ht; cases enc.has_target <;> simp
    simp only [wheel_tick, ht2]
    exact set_motor_speed_zero_immediate m now

/-- Every operation other than the `pulse` command preserves the
neutral-when-untargeted invariant. -/
lemma apply_wheel_op_preserves_inv (w : EncoderState × Motor) (op : WheelOp)
    (hop : op.is_pulse = false) (_hw : wheel_neutral_inv w) :
    wheel_neutral_inv (apply_wheel_op w op) := by
  cases op with
  | tick mp now =>
      intro h
      exact wheel_tick_clear_neutral w.1 w.2 mp now h
  | stop_cmd now =>
      intro _
      exact set_motor_speed_zero_immediate w.2 now
  | goto_prog t now =>
      intro h
      simp only [apply_wheel_op, goto_program_wheel] at h
      simp at h
  | pulse_cmd ns => simp [WheelOp.is_pulse] at hop

/-- The invariant holds along any pulse-free operation history. -/
lemma run_wheel_ops_inv (ops : List WheelOp) :
    ∀ w : EncoderState × Motor, (∀ op ∈ ops, op.is_pulse = false) →
      wheel_neutral_inv w → wheel_neutral_inv (run_wheel_ops w ops) := by
  induction ops with
  | nil => intro w _ hw; exact hw
  | cons op rest ih =>
      intro w hops hw
      exact ih _ (fun o ho => hops o (List.mem_cons_of_mem op ho))
        (apply_wheel_op_preserves_inv w op (hops op (List.mem_cons_self op rest)) hw)

/-- C4 counterexample: the `pulse` command clears `has_target` on a wheel
while commanding a non-neutral pulse on that same tick.  From a wheel
with an active target, `pulse` with 2000000 ns leaves `has_target = 0`
and the motor at FORWARD_MAX_NS, not NEUTRAL_NS. -/
theorem clear_target_neutral_cex :
    (pulse_wheel { encoder_init with has_target := true } motor_init 2000000).1.has_target
        = false ∧
      (pulse_wheel { encoder_init with has_target := true } motor_init
        2000000).2.last_pulse_ns = 2000000 ∧
      ¬((pulse_wheel { encoder_init with has_target := true } motor_init
        2000000).2.last_pulse_ns = NEUTRAL_NS) := by
  refine ⟨rfl, rfl, ?_⟩
  decide

/-- C4 amended: every operation that clears `has_target` other than the
`pulse` command (control-thread segment completion and the `stop`
command) commands the wheel's motor to neutral on the same tick, and
along any pulse-free operation history from the initial state,
`has_target = 0` implies the last command was neutral; the `pulse`
command instead clears `has_target` while applying the requested clamped
pulse width. -/
theorem clear_target_neutral_amended :
    (∀ (enc : EncoderState) (m : Motor) (mp : ℤ) (now : ℚ),
        (wheel_tick enc m mp now).1.has_target = false →
          (wheel_tick enc m mp now).2.1.last_pulse_ns = NEUTRAL_NS) ∧
      (∀ (enc : EncoderState) (m : Motor) (now : ℚ),
        (stop_wheel enc m now).1.has_target = false ∧
          (stop_wheel enc m now).2.last_pulse_ns = NEUTRAL_NS) ∧
      (∀ ops : List WheelOp, (∀ op ∈ ops, op.is_pulse = false) →
        wheel_neutral_inv (run_wheel_ops (encoder_init, motor_init) ops)) ∧
      (∀ (enc : EncoderState) (m : Motor) (ns : ℤ),
        (pulse_wheel enc m ns).1.has_target = false) := by
  refine ⟨wheel_tick_clear_neutral, ?_, ?_, ?_⟩
  · intro enc m now
    exact ⟨rfl, set_motor_speed_zero_immediate m now⟩
  · intro ops hops
    exact run_wheel_ops_inv ops (encoder_init, motor_init) hops (fun _ => rfl)
  · intro enc m ns
    rfl

/-- Witness for the amended C4 at a concrete pulse-free history:
stop command at time 1, then a control tick at time 2. -/
theorem clear_target_neutral_witness :
    (run_wheel_ops (encoder_init, motor_init)
        [WheelOp.stop_cmd 1, WheelOp.tick 45 2]).2.last_pulse_ns = NEUTRAL_NS :=
  clear_target_neutral_amended.2.2.1 [WheelOp.stop_cmd 1, WheelOp.tick 45 2]
    (by intro op hop; fin_cases hop <;> rfl) (by decide)

/-- C2 counterexample: for an encoder state consistent with
`total_counts = calculate_position` (rotation 0, raw angle 100, start 0,
`move_start_counts` 0), the control thread's relative progress is 200,
not `total_counts - move_start_counts = 100`: the raw-angle offset is
counted twice. -/
theorem control_relative_cex :
    c2_enc.total_counts = calculate_position c2_enc ∧
      control_relative c2_enc = 200 ∧
      c2_enc.total_counts - c2_enc.move_start_counts = 100 ∧
      ¬(control_relative c2_enc = c2_enc.total_counts - c2_enc.move_start_counts) := by
  refine ⟨by decide, by decide, by decide, ?_⟩
  decide

/-- C2 amended: in the per-wheel tick the relative progress used for the
control error is `total_counts + (current_raw_angle - start_raw_angle) -
move_start_counts`; since the feedback thread maintains `total_counts =
COUNTS_PER_REV * rotation_count + (current_raw_angle - start_raw_angle)`,
the raw-angle offset IS added a second time on top of `total_counts`. -/
theorem control_relative_double_offset (enc : EncoderState)
    (h : enc.total_counts = calculate_position enc) :
    control_relative enc = COUNTS_PER_REV * enc.rotation_count
      + 2 * (enc.current_raw_angle - enc.start_raw_angle) - enc.move_start_counts := by
  unfold control_relative
  unfold calculate_position at h
  omega

/-- Witness for the amended C2 at the concrete consistent state. -/
theorem control_relative_double_offset_witness :
    c2_enc.total_counts = calculate_position c2_enc ∧
      control_relative c2_enc = COUNTS_PER_REV * c2_enc.rotation_count
        + 2 * (c2_enc.current_raw_angle - c2_enc.start_raw_angle)
        - c2_enc.move_start_counts :=
  ⟨by decide, control_relative_double_offset c2_enc (by decide)⟩

/-- `log_data` is a no-op once the buffer is gone. -/
lemma log_data_none (s : LogState) (e : LogEntry) (h : s.log_buffer = none) :
    log_data s e = s := by
  unfold log_data
  rw [h]

/-- `dump_log_rows` is empty once the buffer is gone. -/
lemma dump_log_rows_none (s : LogState) (h : s.log_buffer = none) :
    dump_log_rows s = [] := by
  unfold dump_log_rows
  rw [h]

/-- Every log operation preserves a freed buffer. -/
lemma apply_log_op_none (s : LogState) (op : LogOp) (h : s.log_buffer = none) :
    (apply_log_op s op).log_buffer = none := by
  cases op with
  | log e => rw [apply_log_op, log_data_none s e h]; exact h
  | stop_cmd =>
      show (stop_cmd_log s).log_buffer = none
      unfold stop_cmd_log dump_log
      rw [h]
      exact h
  | signal_dump =>
      show (dump_log s).log_buffer = none
      unfold dump_log
      rw [h]
      exact h

/-- A freed buffer stays freed along any operation history. -/
lemma run_log_ops_none (ops : List LogOp) :
    ∀ s : LogState, s.log_buffer = none → (run_log_ops s ops).log_buffer = none := by
  induction ops with
  | nil => intro s h; exact h
  | cons op rest ih =>
      intro s h
      exact ih _ (apply_log_op_none s op h)

/-- `dump_log` always leaves the buffer freed. -/
lemma dump_log_buffer_none (s : LogState) : (dump_log s).log_buffer = none := by
  unfold dump_log
  cases hs : s.log_buffer with
  | none => exact hs
  | some buf => rfl

/-- C10: once `dump_log` has run, `log_buffer` is `none` and remains so
under every later operation (control-tick appends, `stop` commands,
signal dumps); every later `log_data` leaves the log state unchanged, a
later dump writes no rows, and the first `stop` also resets `log_index`
to 0 - telemetry logging is permanently disabled. -/
theorem log_disabled_after_dump (s : LogState) (ops : List LogOp) (e : LogEntry) :
    (dump_log s).log_buffer = none ∧
      (run_log_ops (dump_log s) ops).log_buffer = none ∧
      log_data (run_log_ops (dump_log s) ops) e = run_log_ops (dump_log s) ops ∧
      dump_log_rows (run_log_ops (dump_log s) ops) = [] ∧
      (stop_cmd_log s).log_index = 0 := by
  have h0 := dump_log_buffer_none s
  have h1 := run_log_ops_none ops (dump_log s) h0
  exact ⟨h0, h1, log_data_none _ e h1, dump_log_rows_none _ h1, rfl⟩

/-- C3 counterexample: with both encoder reads succeeding and the IMU
read failing (modelled by `none`; `imu_read_gyro_z` returns 0.0), the
returned sample still has `valid = true`, because sensors.c line 39 sets
the IMU thread's success flag unconditionally. -/
theorem read_all_sensors_valid_cex :
    (read_all_sensors 100 200 none 0 0).valid = true ∧
      imu_read_gyro_z none 0 = 0 :=
  ⟨rfl, rfl⟩

/-- C3 amended: a sample is valid iff BOTH ENCODER sub-reads succeeded;
the IMU sub-read is always reported successful (a failed read yields
gyro 0.0), so it never invalidates a sample.  Invalid samples still make
the feedback tick skip (the `continue` in main.c line 562). -/
theorem read_all_sensors_valid_amended :
    ∀ (la ra : ℤ) (r : Option ℤ) (off ts : ℚ),
      ((read_all_sensors la ra r off ts).valid = true ↔ 0 ≤ la ∧ 0 ≤ ra) ∧
      (∀ (st : FeedbackState) (pl pr : ℤ) (dt : ℝ),
        (read_all_sensors la ra r off ts).valid = false →
          feedback_tick st (read_all_sensors la ra r off ts) pl pr dt = st) := by
  intro la ra r off ts
  constructor
  · simp [read_all_sensors]
  · intro st pl pr dt h
    unfold feedback_tick
    rw [if_pos h]

/-- Witness for the amended C3: a failed left-encoder read (-1) makes the
sample invalid and the feedback tick a no-op. -/
theorem read_all_sensors_valid_witness :
    ((read_all_sensors (-1) 0 none 0 0).valid = true ↔ 0 ≤ (-1 : ℤ) ∧ 0 ≤ (0 : ℤ)) ∧
      feedback_tick fb_example (read_all_sensors (-1) 0 none 0 0) 0 0 0 = fb_example :=
  ⟨(read_all_sensors_valid_amended (-1) 0 none 0 0).1,
    (read_all_sensors_valid_amended (-1) 0 none 0 0).2 fb_example 0 0 0 rfl⟩

/-- C6: with the IMU open and every raw gyro-z register read returning
the constant c (raw rate b = c/131 dps), `imu_calibrate(N)` for any
N >= 1 stores `z_gyro_offset = -b`, and every subsequent
`imu_read_gyro_z` then returns -2b: a constant stationary bias is
doubled in magnitude with flipped sign instead of cancelled. -/
theorem imu_calibrate_doubles_bias (c : ℤ) (N : ℕ) (hN : 1 ≤ N) :
    imu_calibrate_offset N (some c) = -((c : ℚ) / 131) ∧
      imu_read_gyro_z (some c) (imu_calibrate_offset N (some c)) = -(2 * ((c : ℚ) / 131)) := by
  have hNne : (N : ℚ) ≠ 0 := Nat.cast_ne_zero.mpr (by omega)
  have hcal : imu_calibrate_offset N (some c) = -((c : ℚ) / 131) := by
    unfold imu_calibrate_offset imu_read_gyro_z
    rw [List.sum_replicate, nsmul_eq_mul]
    field_simp
    ring
  refine ⟨hcal, ?_⟩
  rw [hcal]
  unfold imu_read_gyro_z
  ring

/-- Witness for C6 at c = 131 (b = 1 dps), N = 1: the stored offset is
-1 and the subsequent reading is -2. -/
theorem imu_calibrate_doubles_bias_witness :
    imu_calibrate_offset 1 (some 131) = -1 ∧
      imu_read_gyro_z (some 131) (imu_calibrate_offset 1 (some 131)) = -2 := by
  have h := imu_calibrate_doubles_bias 131 1 (by norm_num)
  refine ⟨?_, ?_⟩
  · rw [h.1]; norm_num
  · rw [h.2]; norm_num

/-- `normalize_heading` never goes below 0. -/
lemma normalize_heading_nonneg (h : ℝ) : 0 ≤ normalize_heading h := by
  unfold normalize_heading
  have h1 : (⌊h / 360⌋ : ℝ) ≤ h / 360 := Int.floor_le _
  have h2 : (360 : ℝ) * ⌊h / 360⌋ ≤ 360 * (h / 360) :=
    mul_le_mul_of_nonneg_left h1 (by norm_num)
  have h3 : (360 : ℝ) * (h / 360) = h := by ring
  linarith

/-- `normalize_heading` stays below 360. -/
lemma normalize_heading_lt_360 (h : ℝ) : normalize_heading h < 360 := by
  unfold normalize_heading
  have h1 : h / 360 < ⌊h / 360⌋ + 1 := Int.lt_floor_add_one _
  have h2 : (360 : ℝ) * (h / 360) < 360 * ((⌊h / 360⌋ : ℝ) + 1) :=
    mul_lt_mul_of_pos_left h1 (by norm_num)
  have h3 : (360 : ℝ) * (h / 360) = h := by ring
  linarith

/-- Loop exit of the while pair: an already-normalized heading is fixed. -/
lemma normalize_heading_eq_self (h : ℝ) (h0 : 0 ≤ h) (h1 : h < 360) :
    normalize_heading h = h := by
  unfold normalize_heading
  have hfz : ⌊h / 360⌋ = 0 := by
    apply Int.floor_eq_zero_iff.mpr
    constructor
    · positivity
    · rw [div_lt_one (by norm_num : (0:ℝ) < 360)]
      exact h1
  rw [hfz]
  simp

/-- First loop step of main.c line 666: subtracting one period does not
change the normalized value. -/
lemma normalize_heading_sub_360 (h : ℝ) :
    normalize_heading (h - 360) = normalize_heading h := by
  unfold normalize_heading
  have harg : (h - 360) / 360 = h / 360 - 1 := by ring
  rw [harg]
  rw [show h / 360 - 1 = h / 360 + (-1 : ℤ) by push_cast; ring]
  rw [Int.floor_add_int]
  push_cast
  ring

/-- Second loop step of main.c line 667: adding one period does not
change the normalized value. -/
lemma normalize_heading_add_360 (h : ℝ) :
    normalize_heading (h + 360) = normalize_heading h := by
  unfold normalize_heading
  rw [show h + 360 = h + ((360 : ℤ) : ℝ) by push_cast; ring]
  rw [show (h + ((360 : ℤ) : ℝ)) / 360 = h / 360 + (1 : ℤ) by push_cast; ring]
  rw [Int.floor_add_int]
  push_cast
  ring

/-- C5 counterexample: the accepted command `setpos 5 5 400` stores
heading = 400, which is not in [0, 360): `process_setpos` performs no
normalization. -/
theorem heading_range_cex :
    (process_setpos odom_example 5 5 400 0 0).heading = 400 ∧
      ¬((process_setpos odom_example 5 5 400 0 0).heading < 360) := by
  refine ⟨rfl, ?_⟩
  show ¬((400 : ℝ) < 360)
  norm_num

/-- C5 amended: every odometry integration tick leaves
`Pose.heading ∈ [0, 360)` (the while-loop normalization), but an
accepted `setpos x y h` stores h exactly as given, so after `setpos` the
heading is in [0, 360) only when the commanded h already is. -/
theorem heading_range_amended :
    (∀ (s : OdometryState) (lt rt : ℤ) (g dt : ℝ),
        0 ≤ (update_odometry s lt rt g dt).heading ∧
          (update_odometry s lt rt g dt).heading < 360) ∧
      (∀ (s : OdometryState) (x y hh : ℝ) (lt rt : ℤ),
        (process_setpos s x y hh lt rt).heading = hh) := by
  constructor
  · intro s lt rt g dt
    exact ⟨normalize_heading_nonneg _, normalize_heading_lt_360 _⟩
  · intro s x y hh lt rt
    rfl

/-- An odometry tick whose encoder totals equal the stored baselines
(stationary wheels) integrates no gyro and moves no position: the update
reduces to re-normalizing the heading. -/
lemma update_odometry_stationary (s : OdometryState) (g dt : ℝ) :
    update_odometry s s.last_left_total s.last_right_total g dt =
      { x := s.x, y := s.y, heading := normalize_heading s.heading,
        last_left_total := s.last_left_total, last_right_total := s.last_right_total } := by
  unfold update_odometry
  norm_num [sub_self]

/-- C9 counterexample: from the reachable state with heading 400 (set by
`setpos 0 0 400`, which stores the heading unnormalized), a stationary
tick with gyro 1 dps and dt = 1 s changes the stored heading from 400
to 40 through the trailing normalization loops, even though the heading
increment itself is zero. -/
theorem motion_gate_cex :
    (update_odometry odom_heading400 0 0 1 1).heading = 40 ∧
      odom_heading400.heading = 400 ∧
      ¬((update_odometry odom_heading400 0 0 1 1).heading = odom_heading400.heading) := by
  have hstep : (update_odometry odom_heading400 0 0 1 1).heading
      = normalize_heading 400 := by
    have h := update_odometry_stationary odom_heading400 1 1
    calc (update_odometry odom_heading400 0 0 1 1).heading
        = (update_odometry odom_heading400 odom_heading400.last_left_total
            odom_heading400.last_right_total 1 1).heading := rfl
      _ = normalize_heading odom_heading400.heading := by rw [h]
      _ = normalize_heading 400 := rfl
  have hnorm : normalize_heading 400 = 40 := by
    unfold normalize_heading
    have hf : ⌊(400 : ℝ) / 360⌋ = 1 := by
      rw [Int.floor_eq_iff]
      constructor <;> norm_num
    rw [hf]
    norm_num
  refine ⟨by rw [hstep, hnorm], rfl, ?_⟩
  rw [hstep, hnorm]
  show ¬((40 : ℝ) = 400)
  norm_num

/-- C9 amended: a tick whose encoder totals are unchanged (center_dist =
0, below the 0.001 ft motion gate) has zero heading increment regardless
of the gyro rate and dt, leaves x and y unchanged, and maps the heading
through the trailing normalization - so the heading itself is unchanged
whenever the pre-tick heading already lies in [0, 360); only a pre-tick
heading outside that range (producible only by `setpos`) is rewritten to
its normalized value. -/
theorem motion_gate_amended (s : OdometryState) (g dt : ℝ) :
    (update_odometry s s.last_left_total s.last_right_total g dt).x = s.x ∧
      (update_odometry s s.last_left_total s.last_right_total g dt).y = s.y ∧
      (update_odometry s s.last_left_total s.last_right_total g dt).heading
        = normalize_heading s.heading ∧
      (0 ≤ s.heading → s.heading < 360 →
        (update_odometry s s.last_left_total s.last_right_total g dt).heading
          = s.heading) := by
  have h := update_odometry_stationary s g dt
  refine ⟨by rw [h], by rw [h], by rw [h], ?_⟩
  intro h0 h1
  rw [h]
  exact normalize_heading_eq_self s.heading h0 h1

/-- Witness for the amended C9: from (0, 0, 90) with stationary wheels,
gyro 1 dps and dt = 1 s leave the pose exactly unchanged. -/
theorem motion_gate_witness :
    (update_odometry odom_heading90 0 0 1 1).x = 0 ∧
      (update_odometry odom_heading90 0 0 1 1).y = 0 ∧
      (update_odometry odom_heading90 0 0 1 1).heading = 90 := by
  have h := motion_gate_amended odom_heading90 1 1
  exact ⟨h.1, h.2.1, h.2.2.2 (by norm_num [odom_heading90]) (by norm_num [odom_heading90])⟩

/-- The pi factors of `calculate_turn_counts` cancel: the result is the
floor of `|degrees| * (16 * 4096) / (360 * 5.3)`. -/
lemma calculate_turn_counts_eq (d : ℝ) :
    calculate_turn_counts d = ⌊|d| * (65536 / 1908 : ℝ)⌋ := by
  unfold calculate_turn_counts COUNTS_PER_INCH WHEEL_CIRCUMFERENCE_INCHES
    WHEELBASE_INCHES WHEEL_DIAMETER_INCHES
  congr 1
  have hpi : Real.pi ≠ 0 := Real.pi_ne_zero
  have h53 : (5.3 : ℝ) = 53 / 10 := by norm_num
  have h16 : (16.0 : ℝ) = 16 := by norm_num
  rw [h53, h16]
  field_simp
  ring

/-- `calculate_turn_counts` never returns a negative value: the sign of
the heading difference is discarded by `fabs`. -/
lemma calculate_turn_counts_nonneg (d : ℝ) : 0 ≤ calculate_turn_counts d := by
  rw [calculate_turn_counts_eq]
  apply Int.floor_nonneg.mpr
  positivity

/-- C1 counterexample: at heading_diff = -90 degrees (a programmed turn,
since 90 > 5) the left wheel target is +3091 counts, not a negative
value as the sign-mirroring claim requires. -/
theorem goto_turn_target_cex :
    left_turn_target (-90) = 3091 ∧ ¬(left_turn_target (-90) < 0) := by
  have h : left_turn_target (-90) = 3091 := by
    unfold left_turn_target
    rw [calculate_turn_counts_eq]
    have habs : |(-90 : ℝ)| = 90 := by norm_num
    rw [habs]
    rw [Int.floor_eq_iff]
    constructor <;> norm_num
  refine ⟨h, ?_⟩
  rw [h]
  norm_num

/-- C1 amended: the planning tick for a turn programs the left wheel
with `calculate_turn_counts(heading_diff)`, which is always
non-negative (the sign of heading_diff is discarded by `fabs`), and the
right wheel with its negation; the heading difference itself is
normalized to [-180, 180], so after `setpos 5 5 180` a `goto 5 10`
computes heading_diff = -90 (not +270) and programs a turn
(90 > 5 degrees). -/
theorem goto_turn_target_amended :
    (∀ d : ℝ, left_turn_target d = calculate_turn_counts d ∧
        right_turn_target d = -(left_turn_target d) ∧ 0 ≤ left_turn_target d) ∧
      goto_heading_diff 5 10 5 5 180 = -90 ∧
      |goto_heading_diff 5 10 5 5 180| > 5 := by
  have h1 : atan2 5 0 = Real.pi / 2 := by
    unfold atan2
    rw [if_neg (by norm_num), if_neg (by norm_num), if_pos (by norm_num)]
  have h2 : Real.pi / 2 * 180 / Real.pi = 90 := by
    have hpi : Real.pi ≠ 0 := Real.pi_ne_zero
    field_simp
    ring
  have h3 : goto_target_heading 0 5 = 90 := by
    unfold goto_target_heading
    rw [h1, h2, if_neg (by norm_num)]
  have hd : goto_heading_diff 5 10 5 5 180 = -90 := by
    unfold goto_heading_diff
    norm_num
    rw [h3]
    unfold wrap_pm180
    rw [if_neg (by norm_num), if_neg (by norm_num)]
    norm_num
  refine ⟨?_, hd, ?_⟩
  · intro d
    exact ⟨rfl, rfl, calculate_turn_counts_nonneg d⟩
  · rw [hd]
    norm_num

end AsgcAvc
